import Mathlib

/-!
# ResiboKo (receipt tracker) — verification of the transaction pipeline

Shallow embedding of the TypeScript sources:
* `src/App.tsx`              — `handleSaveReceipt`, `handleDeleteReceipt`, `handleImageSelect`
* `src/services/geminiService.ts` — response validation of `analyzeReceipt` /
  `analyzeTransactionFromVoice`, `formatTransactionsForAI`
* `src/components/AIAnalytics.tsx` (TransactionHistory) — `getWeekRange`, the
  period filter and the per-category summary.

Conventions of the embedding:
* A JS nullable string field is `Option String`; the JS truthiness test
  `!s` (false for `null` and for `""`) is `truthyStr`.
* A JS number is `ℚ`; `t.total_amount` is `Option ℚ` (`none` = `null`, and on
  the raw extraction response `none` also stands for a missing / wrongly
  typed value, which `typeof x === 'number'` filters out).
* Time is a single local timeline of integer milliseconds since the Unix
  epoch (`ℤ`); `new Date("YYYY-MM-DD")` is `parseDateMs` (proleptic Gregorian,
  via the standard days-from-civil conversion).  The model has one timezone,
  so local and UTC coincide; an unparsable date, `NaN` in JS, is modelled by
  `Option` with a `getD 0` at the comparison sites — all claims below only
  touch records whose dates parse.
* `Array.prototype.sort` with a comparator is modelled by the stable
  `List.insertionSort` with the comparator's order relation (ES2019 requires
  the sort to be stable, which determines the output uniquely).
-/

namespace ResiboKo

/-- Type `ReceiptData` from `src/types.ts`: all six fields nullable. -/
structure ReceiptData where
  transaction_name : Option String
  total_amount : Option ℚ
  transaction_date : Option String
  category : Option String
  client_or_prospect : Option String
  purpose : Option String
deriving DecidableEq

/-- Type `SavedReceiptData` from `src/types.ts`: `ReceiptData` plus the `id`
assigned at save time (`Date.now()`, a millisecond timestamp). -/
structure SavedReceiptData extends ReceiptData where
  id : ℤ
deriving DecidableEq

/-- JS truthiness of a nullable string: `null` and `""` are falsy. -/
def truthyStr : Option String → Bool
  | some s => s != ""
  | none => false

/-- JS `x || d` on a nullable string, with a string default. -/
def jsOrStr (x : Option String) (d : String) : String :=
  match x with
  | some s => if s = "" then d else s
  | none => d

/-- JS `x || null` on a nullable string (collapses `""` to `null`). -/
def jsOrNull (x : Option String) : Option String :=
  match x with
  | some s => if s = "" then none else some s
  | none => none

/-! ## Dates

`new Date("YYYY-MM-DD")` parsing and the civil-date arithmetic behind
`getFullYear` / `getMonth` / `setDate`. -/

/-- All-digit character list to its decimal value. -/
def digitsToNat : List Char → Option ℕ
  | [] => none
  | cs =>
    if cs.all Char.isDigit then
      some (cs.foldl (fun n c => 10 * n + (c.toNat - 48)) 0)
    else none

/-- Split a character list at `'-'` separators. -/
def splitDashes : List Char → List Char → List (List Char)
  | [], acc => [acc.reverse]
  | c :: rest, acc =>
    if c = '-' then acc.reverse :: splitDashes rest []
    else splitDashes rest (c :: acc)

/-- Days from the epoch 1970-01-01 of a proleptic-Gregorian civil date
(Howard Hinnant's `days_from_civil`, floor-division form). -/
def daysFromCivil (y m d : ℤ) : ℤ :=
  let y2 := if m ≤ 2 then y - 1 else y
  let era := y2 / 400
  let yoe := y2 - era * 400
  let mp := (m + 9) % 12
  let doy := (153 * mp + 2) / 5 + d - 1
  let doe := yoe * 365 + yoe / 4 - yoe / 100 + doy
  era * 146097 + doe - 719468

/-- Civil date `(year, month, day)` of a day count from the epoch
(Hinnant's `civil_from_days`). -/
def civilFromDays (z0 : ℤ) : ℤ × ℤ × ℤ :=
  let z := z0 + 719468
  let era := z / 146097
  let doe := z - era * 146097
  let yoe := (doe - doe / 1460 + doe / 36524 - doe / 146096) / 365
  let y := yoe + era * 400
  let doy := doe - (365 * yoe + yoe / 4 - yoe / 100)
  let mp := (5 * doy + 2) / 153
  let d := doy - (153 * mp + 2) / 5 + 1
  let m := mp + (if mp < 10 then 3 else -9)
  (if m ≤ 2 then y + 1 else y, m, d)

/-- Milliseconds per day. -/
def msPerDay : ℤ := 86400000

/-- Model of `new Date(s).getTime()` for an ISO `"YYYY-MM-DD"` string: midnight of the
parsed civil date; `none` models an unparsable string (JS `NaN`). -/
def parseDateMs (s : String) : Option ℤ :=
  match splitDashes s.data [] with
  | [ys, ms, ds] =>
    match digitsToNat ys, digitsToNat ms, digitsToNat ds with
    | some y, some m, some d => some (daysFromCivil (y : ℤ) (m : ℤ) (d : ℤ) * msPerDay)
    | _, _, _ => none
  | _ => none

/-- The sort / filter key `new Date(r.transaction_date!).getTime()` of a saved
record (`0` stands for the JS `NaN` of a missing or unparsable date; every
claim below concerns records with parsable dates, where it never fires). -/
def getTime (r : SavedReceiptData) : ℤ :=
  (r.transaction_date.bind parseDateMs).getD 0

/-- Model of `new Date(s).getFullYear()`: parse, then read the year back off the
timestamp (`0` for the JS `NaN` date). -/
def getFullYearOfDateStr (s : String) : ℤ :=
  match parseDateMs s with
  | some ms => (civilFromDays (ms / msPerDay)).1
  | none => 0

/-! ## Record store: `handleSaveReceipt` / `handleDeleteReceipt` (src/App.tsx) -/

/-- The error message of an incomplete save (src/App.tsx line 103). -/
def incompleteMsg : String := "Cannot save incomplete receipt data."

/-- Order of the save-time comparator
`(a, b) => new Date(b.transaction_date!).getTime() - new Date(a.transaction_date!).getTime()`:
descending by parsed date. -/
def saveOrder (a b : SavedReceiptData) : Prop := getTime b ≤ getTime a

instance : DecidableRel saveOrder := fun a b =>
  inferInstanceAs (Decidable (getTime b ≤ getTime a))

instance : IsTotal SavedReceiptData saveOrder :=
  ⟨fun a b => le_total (getTime b) (getTime a)⟩

instance : IsTrans SavedReceiptData saveOrder :=
  ⟨fun _ _ _ h1 h2 => le_trans h2 h1⟩

/-- Promotion to a saved record: `{ ...data, id: Date.now() }`. -/
def mkSaved (data : ReceiptData) (now : ℤ) : SavedReceiptData :=
  { toReceiptData := data, id := now }

/-- Result of a save attempt: the record list afterwards and the error slot. -/
structure SaveOutcome where
  records : List SavedReceiptData
  error : Option String
deriving DecidableEq

/-- Embedding of `handleSaveReceipt` (src/App.tsx lines 101–112): reject when
`!data.transaction_name || data.total_amount === null || !data.transaction_date || !data.category`,
otherwise prepend the new record and sort the whole list descending by date. -/
def handleSaveReceipt (data : ReceiptData) (prev : List SavedReceiptData) (now : ℤ) :
    SaveOutcome :=
  if !truthyStr data.transaction_name || data.total_amount.isNone
      || !truthyStr data.transaction_date || !truthyStr data.category then
    { records := prev, error := some incompleteMsg }
  else
    { records := List.insertionSort saveOrder (mkSaved data now :: prev), error := none }

/-- Embedding of `handleDeleteReceipt` (src/App.tsx lines 132–134):
`prev.filter(receipt => receipt.id !== id)`. -/
def handleDeleteReceipt (idv : ℤ) (prev : List SavedReceiptData) : List SavedReceiptData :=
  prev.filter (fun r => r.id != idv)

/-- A sequence of save attempts folded over the record list. -/
def iterateSaves : List (ReceiptData × ℤ) → List SavedReceiptData → List SavedReceiptData
  | [], l => l
  | (d, t) :: ops, l => iterateSaves ops (handleSaveReceipt d l t).records

/-! ## Extraction adapter (src/services/geminiService.ts) -/

/-- The closed category enumeration (geminiService.ts lines 18–21). -/
def categories : List String :=
  ["Food & Drink", "Groceries", "Transportation", "Shopping", "Utilities",
   "Entertainment", "Health & Wellness", "Travel", "Other"]

/-- Category cleanup `data.category && categories.includes(data.category) ? data.category : 'Other'`. -/
def validateCategory (c : Option String) : String :=
  match c with
  | some s => if s != "" && categories.contains s then s else "Other"
  | none => "Other"

/-- The validation block of `analyzeReceipt` (geminiService.ts lines 61–68),
applied to the parsed model response `data`. -/
def analyzeReceiptValidated (data : ReceiptData) : ReceiptData :=
  { transaction_name := jsOrNull data.transaction_name
    total_amount := data.total_amount
    transaction_date := jsOrNull data.transaction_date
    category := some (validateCategory data.category)
    client_or_prospect := jsOrNull data.client_or_prospect
    purpose := jsOrNull data.purpose }

/-- The validation block of `analyzeTransactionFromVoice` (geminiService.ts
lines 105–112): identical except `transaction_date: data.transaction_date || today`. -/
def analyzeVoiceValidated (data : ReceiptData) (today : String) : ReceiptData :=
  { transaction_name := jsOrNull data.transaction_name
    total_amount := data.total_amount
    transaction_date := some (jsOrStr data.transaction_date today)
    category := some (validateCategory data.category)
    client_or_prospect := jsOrNull data.client_or_prospect
    purpose := jsOrNull data.purpose }

/-! ## Image-analysis year gate (src/App.tsx, `handleImageSelect`) -/

/-- The out-of-year error message (src/App.tsx line 87). -/
def yearCheckMsg (receiptYear currentYear : ℤ) : String :=
  "This receipt is from " ++ toString receiptYear ++
    ". Only transactions for the current year (" ++ toString currentYear ++ ") are allowed."

/-- State visible to `handleImageSelect` after `analyzeReceipt` returned:
the record offered for review, the error slot, and the saved list (the
handler never writes the latter). -/
structure ImageSelectOutcome where
  receiptData : Option ReceiptData
  error : Option String
  savedReceipts : List SavedReceiptData
deriving DecidableEq

/-- The year-validation tail of `handleImageSelect` (src/App.tsx lines 83–92):
with a truthy extracted date whose year is not the current year, set the
error naming that year and drop the record; otherwise offer it for review. -/
def handleImageSelect (data : ReceiptData) (saved : List SavedReceiptData)
    (currentYear : ℤ) : ImageSelectOutcome :=
  if truthyStr data.transaction_date then
    let receiptYear := getFullYearOfDateStr (data.transaction_date.getD "")
    if receiptYear ≠ currentYear then
      { receiptData := none, error := some (yearCheckMsg receiptYear currentYear),
        savedReceipts := saved }
    else
      { receiptData := some data, error := none, savedReceipts := saved }
  else
    { receiptData := some data, error := none, savedReceipts := saved }

/-! ## `formatTransactionsForAI` (geminiService.ts lines 117–136) -/

/-- Model of `Number.prototype.toFixed(2)` on the exact rational value:
two decimal digits, ties resolved to the larger candidate on the absolute
value, sign prefixed afterwards (the ECMA-262 algorithm modulo the binary
representation of doubles, which the model does not carry). -/
def toFixed2 (q : ℚ) : String :=
  let a : ℕ := (round (|q| * 100)).toNat
  let frac := a % 100
  (if q < 0 then "-" else "") ++ toString (a / 100) ++ "." ++
    (if frac < 10 then "0" else "") ++ toString frac

/-- The header row (geminiService.ts line 121). -/
def aiHeader : String := "Date,Transaction,Amount,Category,Client/Prospect,Purpose\n"

/-- The six cells of one serialized row (geminiService.ts lines 124–131);
the amount cell is `t.total_amount?.toFixed(2) || '0.00'`. -/
def rowFields (t : SavedReceiptData) : List String :=
  [jsOrStr t.transaction_date "N/A",
   jsOrStr t.transaction_name "N/A",
   (match t.total_amount with
    | some q => if toFixed2 q = "" then "0.00" else toFixed2 q
    | none => "0.00"),
   jsOrStr t.category "N/A",
   jsOrStr t.client_or_prospect "N/A",
   jsOrStr t.purpose "N/A"]

/-- Embedding of `formatTransactionsForAI`: the early return on an empty list, else the
header with one comma-joined row per record appended. -/
def formatTransactionsForAI (ts : List SavedReceiptData) : String :=
  if ts.isEmpty then "No transactions available."
  else ts.foldl (fun acc t => acc ++ (String.intercalate "," (rowFields t) ++ "\n")) aiHeader

/-! ## Summarization engine (src/components/AIAnalytics.tsx, TransactionHistory) -/

/-- The aggregation key `receipt.category || 'Uncategorized'`. -/
def keyOf (r : SavedReceiptData) : String := jsOrStr r.category "Uncategorized"

/-- The aggregated amount `receipt.total_amount || 0` (for a present amount
`0` the JS falsiness still yields `0`, so `getD 0` is exact). -/
def amtOf (r : SavedReceiptData) : ℚ := r.total_amount.getD 0

/-- One step of `acc[category] = (acc[category] || 0) + (receipt.total_amount || 0)`
on a JS object whose keys are the non-numeric category strings: insertion
order is preserved, an existing key is updated in place, a new key is
appended at the end. -/
def updateAcc : List (String × ℚ) → String → ℚ → List (String × ℚ)
  | [], c, q => [(c, q)]
  | (k, v) :: rest, c, q =>
    if k = c then (k, v + q) :: rest else (k, v) :: updateAcc rest c q

/-- The `filtered.reduce(...)` plus `Object.entries` of TransactionHistory
(AIAnalytics.tsx lines 247–256). -/
def summarize (rs : List SavedReceiptData) : List (String × ℚ) :=
  rs.foldl (fun acc r => updateAcc acc (keyOf r) (amtOf r)) []

/-- Model of `getDay()` on a timestamp: 0 = Sunday … 6 = Saturday
(day 0, 1970-01-01, was a Thursday). -/
def jsGetDay (t : ℤ) : ℤ := (t / msPerDay + 4) % 7

/-- The day shift `- day + (day === 0 ? -6 : 1)` applied by `getWeekRange`
through `setDate`: `-6` days on a Sunday, `1 - day` days otherwise. -/
def weekShift (now : ℤ) : ℤ :=
  if jsGetDay now = 0 then -6 else 1 - jsGetDay now

/-- Embedding of `getWeekRange` (AIAnalytics.tsx lines 168–179): `setDate(getDate() - day
+ (day === 0 ? -6 : 1))` shifts the date by `weekShift` days,
`setHours(0,0,0,0)` floors to midnight; the end is six days later at
`23:59:59.999`, i.e. one millisecond before the next week's start. -/
def getWeekRange (now : ℤ) : ℤ × ℤ :=
  ((now / msPerDay + weekShift now) * msPerDay,
   (now / msPerDay + weekShift now) * msPerDay + 7 * msPerDay - 1)

/-- Model of `new Date(now.getFullYear(), now.getMonth(), 1)`: midnight of the first
of the current month. -/
def monthStartMs (now : ℤ) : ℤ :=
  let c := civilFromDays (now / msPerDay)
  daysFromCivil c.1 c.2.1 1 * msPerDay

/-- Embedding of `getQuarterRange(now).start` (AIAnalytics.tsx lines 181–187):
`quarter = floor(getMonth() / 3)` on the 0-based month, start at the first
of month `quarter * 3`. -/
def quarterStartMs (now : ℤ) : ℤ :=
  let c := civilFromDays (now / msPerDay)
  let q := (c.2.1 - 1) / 3
  daysFromCivil c.1 (q * 3 + 1) 1 * msPerDay

/-- Model of `new Date(now.getFullYear(), 0, 1)`: midnight of January 1. -/
def yearStartMs (now : ℤ) : ℤ :=
  let c := civilFromDays (now / msPerDay)
  daysFromCivil c.1 1 1 * msPerDay

/-- The six-valued period selector of TransactionHistory. -/
inductive FilterType
  | Daily | Weekly | Monthly | Quarterly | Yearly | All
deriving DecidableEq

/-- The `switch (activeFilter)` record filter (AIAnalytics.tsx lines 213–245):
`Daily` keeps dates at or after today's midnight, `Weekly` keeps dates inside
`getWeekRange(now)` (both ends inclusive), the remaining windows keep dates
at or after their start; `All` keeps everything. -/
def filterReceipts (f : FilterType) (now : ℤ) (receipts : List SavedReceiptData) :
    List SavedReceiptData :=
  match f with
  | .Daily => receipts.filter (fun r => decide (now / msPerDay * msPerDay ≤ getTime r))
  | .Weekly => receipts.filter (fun r =>
      decide ((getWeekRange now).1 ≤ getTime r) && decide (getTime r ≤ (getWeekRange now).2))
  | .Monthly => receipts.filter (fun r => decide (monthStartMs now ≤ getTime r))
  | .Quarterly => receipts.filter (fun r => decide (quarterStartMs now ≤ getTime r))
  | .Yearly => receipts.filter (fun r => decide (yearStartMs now ≤ getTime r))
  | .All => receipts

/-- The `filteredData` part of the `useMemo` (AIAnalytics.tsx lines 208–259):
the raw filtered list for `All`, the per-category summary otherwise. -/
def filteredData (f : FilterType) (now : ℤ) (receipts : List SavedReceiptData) :
    List SavedReceiptData ⊕ List (String × ℚ) :=
  match f with
  | .All => Sum.inl receipts
  | _ => Sum.inr (summarize (filterReceipts f now receipts))

/-! ## Spec-side definitions

Written from the specification's words, to be compared with the embedded
code above. -/

/-- From the spec: the distinct keys of a list, in insertion order of first
occurrence (scan left to right, append a key the first time it is seen). -/
def firstSeenStep (ks : List String) (c : String) : List String :=
  if c ∈ ks then ks else ks ++ [c]

/-- From the spec: the distinct keys of a list in insertion order of first
occurrence. -/
def firstSeen (cs : List String) : List String := cs.foldl firstSeenStep []

/-- From the spec: the contribution of records of key `c`, absent amounts
counted as zero. -/
def sumFor (c : String) (rs : List SavedReceiptData) : ℚ :=
  ((rs.filter (fun r => keyOf r == c)).map amtOf).sum

/-- From the amended C4: an absent (or empty) string field renders "N/A". -/
def specCell (x : Option String) : String :=
  match x with
  | some s => if s = "" then "N/A" else s
  | none => "N/A"

/-- From the amended C4: an absent amount renders "0.00", a present amount
renders its two-decimal formatting. -/
def specAmt (a : Option ℚ) : String :=
  match a with
  | some q => toFixed2 q
  | none => "0.00"

/-- From the amended C4: the serialized rows, one per record. -/
def specRows : List SavedReceiptData → String
  | [] => ""
  | t :: ts => (String.intercalate "," (rowFields t) ++ "\n") ++ specRows ts

/-! ## Concrete inputs for the scenario parts and witnesses -/

/-- C3 scenario input: a Transportation record of 50. -/
def c3rec1 : ReceiptData :=
  ⟨some "Grab", some 50, some "2025-10-09", some "Transportation", none, none⟩

/-- C3 scenario input: a Transportation record of 100. -/
def c3rec2 : ReceiptData :=
  ⟨some "Toll", some 100, some "2025-10-07", some "Transportation", none, none⟩

/-- C3 scenario input: a Food & Drink record of 200. -/
def c3rec3 : ReceiptData :=
  ⟨some "Jollibee", some 200, some "2025-10-05", some "Food & Drink", none, none⟩

/-- C3 scenario: the three saves, in order. -/
def c3ops : List (ReceiptData × ℤ) := [(c3rec1, 1), (c3rec2, 2), (c3rec3, 3)]

/-- C3 scenario: "now" is noon of 2025-10-15, in the same month. -/
def c3now : ℤ := daysFromCivil 2025 10 15 * msPerDay + 43200000

/-- C4 counterexample input: a saved record with every nullable field absent. -/
def c4rec : SavedReceiptData := ⟨⟨none, none, none, none, none, none⟩, 1⟩

/-- The step function used by `summarize`. -/
def summStep (acc : List (String × ℚ)) (r : SavedReceiptData) : List (String × ℚ) :=
  updateAcc acc (keyOf r) (amtOf r)

/-! ## Helper lemmas -/

/-- A fold appending one chunk of text per element equals the accumulator
followed by the concatenation of the chunks. -/
lemma foldl_append_rows (ts : List SavedReceiptData) (acc : String) :
    ts.foldl (fun a t => a ++ (String.intercalate "," (rowFields t) ++ "\n")) acc =
      acc ++ specRows ts := by
  induction ts generalizing acc with
  | nil => simp [specRows]
  | cons t ts ih => simp [specRows, ih, String.append_assoc]

lemma updateAcc_map_fst (al : List (String × ℚ)) (c : String) (q : ℚ) :
    (updateAcc al c q).map Prod.fst = firstSeenStep (al.map Prod.fst) c := by
  induction al with
  | nil => simp [updateAcc, firstSeenStep]
  | cons kv rest ih =>
    obtain ⟨k, v⟩ := kv
    by_cases hk : k = c
    · subst hk
      simp [updateAcc, firstSeenStep]
    · have hck : c ≠ k := Ne.symm hk
      simp only [updateAcc, if_neg hk, List.map_cons, ih, firstSeenStep,
        List.mem_cons]
      by_cases hc : c ∈ rest.map Prod.fst
      · simp [hc, hck]
      · simp [hc, hck]

lemma lookup_isSome_iff (al : List (String × ℚ)) (c : String) :
    (al.lookup c).isSome ↔ c ∈ al.map Prod.fst := by
  induction al with
  | nil => simp [List.lookup]
  | cons kv rest ih =>
    obtain ⟨k, v⟩ := kv
    by_cases hk : c = k
    · subst hk
      simp [List.lookup]
    · have hbe : (c == k) = false := beq_false_of_ne hk
      simp only [List.lookup, hbe, List.map_cons, List.mem_cons]
      rw [ih]
      simp [hk]

lemma updateAcc_lookup_self (al : List (String × ℚ)) (c : String) (q : ℚ) :
    (updateAcc al c q).lookup c = some ((al.lookup c).getD 0 + q) := by
  induction al with
  | nil => simp [updateAcc, List.lookup]
  | cons kv rest ih =>
    obtain ⟨k, v⟩ := kv
    by_cases hk : k = c
    · subst hk
      simp [updateAcc, List.lookup]
    · have hbe : (c == k) = false := beq_false_of_ne (Ne.symm hk)
      simp [updateAcc, if_neg hk, List.lookup, hbe, ih]

lemma updateAcc_lookup_ne (al : List (String × ℚ)) {c c' : String} (q : ℚ)
    (h : c' ≠ c) : (updateAcc al c q).lookup c' = al.lookup c' := by
  induction al with
  | nil =>
    have hbe : (c' == c) = false := beq_false_of_ne h
    simp [updateAcc, List.lookup, hbe]
  | cons kv rest ih =>
    obtain ⟨k, v⟩ := kv
    by_cases hk : k = c
    · subst hk
      have hbe : (c' == k) = false := beq_false_of_ne h
      simp [updateAcc, List.lookup, hbe]
    · by_cases hk' : c' = k
      · subst hk'
        simp [updateAcc, if_neg hk, List.lookup]
      · have hbe : (c' == k) = false := beq_false_of_ne hk'
        simp [updateAcc, if_neg hk, List.lookup, hbe, ih]

lemma summarize_eq_foldl (rs : List SavedReceiptData) :
    summarize rs = rs.foldl summStep [] := rfl

lemma summAux_map_fst (rs : List SavedReceiptData) :
    ∀ acc, ((rs.foldl summStep acc).map Prod.fst) =
      (rs.map keyOf).foldl firstSeenStep (acc.map Prod.fst) := by
  induction rs with
  | nil => intro acc; rfl
  | cons r rs ih =>
    intro acc
    simp only [List.foldl_cons, List.map_cons, ih, summStep, updateAcc_map_fst]

lemma firstSeenStep_nodup {ks : List String} (h : ks.Nodup) (c : String) :
    (firstSeenStep ks c).Nodup := by
  unfold firstSeenStep
  by_cases hc : c ∈ ks
  · simpa [hc]
  · simp [hc, List.nodup_append, h]

lemma foldl_firstSeenStep_nodup (cs : List String) :
    ∀ {ks : List String}, ks.Nodup → (cs.foldl firstSeenStep ks).Nodup := by
  induction cs with
  | nil => intro ks h; exact h
  | cons c cs ih => intro ks h; exact ih (firstSeenStep_nodup h c)

lemma mem_firstSeenStep {k c : String} {ks : List String} :
    k ∈ firstSeenStep ks c ↔ k ∈ ks ∨ k = c := by
  unfold firstSeenStep
  by_cases hc : c ∈ ks
  · simp only [if_pos hc]
    constructor
    · exact fun h => Or.inl h
    · rintro (h | rfl)
      · exact h
      · exact hc
  · simp [if_neg hc]

lemma mem_foldl_firstSeenStep (cs : List String) :
    ∀ (ks : List String) (k : String),
      k ∈ cs.foldl firstSeenStep ks ↔ k ∈ ks ∨ k ∈ cs := by
  induction cs with
  | nil => simp
  | cons c cs ih =>
    intro ks k
    simp only [List.foldl_cons, ih, mem_firstSeenStep, List.mem_cons]
    tauto

lemma sumFor_nil (c : String) : sumFor c [] = 0 := rfl

lemma sumFor_cons_self {r : SavedReceiptData} {c : String} (rs : List SavedReceiptData)
    (h : keyOf r = c) : sumFor c (r :: rs) = amtOf r + sumFor c rs := by
  simp [sumFor, List.filter_cons, h]

lemma sumFor_cons_ne {r : SavedReceiptData} {c : String} (rs : List SavedReceiptData)
    (h : keyOf r ≠ c) : sumFor c (r :: rs) = sumFor c rs := by
  have : (keyOf r == c) = false := beq_false_of_ne h
  simp [sumFor, List.filter_cons, this]

lemma summAux_lookup (rs : List SavedReceiptData) :
    ∀ (acc : List (String × ℚ)) (c : String),
      (rs.foldl summStep acc).lookup c =
        if c ∈ rs.map keyOf ∨ c ∈ acc.map Prod.fst
        then some ((acc.lookup c).getD 0 + sumFor c rs)
        else none := by
  induction rs with
  | nil =>
    intro acc c
    by_cases h : c ∈ acc.map Prod.fst
    · obtain ⟨v, hv⟩ := Option.isSome_iff_exists.mp ((lookup_isSome_iff acc c).mpr h)
      simp [h, hv, sumFor_nil]
    · have : acc.lookup c = none := by
        cases hl : acc.lookup c with
        | none => rfl
        | some v =>
          exact absurd ((lookup_isSome_iff acc c).mp (by simp [hl])) h
      simp [h, this]
  | cons r rs ih =>
    intro acc c
    simp only [List.foldl_cons, List.map_cons, List.mem_cons, summStep]
    rw [ih]
    by_cases hk : keyOf r = c
    · subst hk
      have hmem : keyOf r ∈ (updateAcc acc (keyOf r) (amtOf r)).map Prod.fst := by
        rw [updateAcc_map_fst, mem_firstSeenStep]
        exact Or.inr rfl
      rw [if_pos (Or.inr hmem), if_pos (Or.inl (Or.inl rfl)),
        updateAcc_lookup_self, sumFor_cons_self rs rfl]
      simp [add_assoc]
    · have hne : c ≠ keyOf r := fun hh => hk hh.symm
      rw [updateAcc_lookup_ne acc (amtOf r) hne, sumFor_cons_ne rs hk]
      have hmem : c ∈ (updateAcc acc (keyOf r) (amtOf r)).map Prod.fst ↔
          c ∈ acc.map Prod.fst := by
        rw [updateAcc_map_fst, mem_firstSeenStep]
        simp [hne]
      by_cases h1 : c ∈ rs.map keyOf <;> by_cases h2 : c ∈ acc.map Prod.fst <;>
        simp [h1, h2, hne, hmem]

lemma handleSaveReceipt_of_incomplete {data : ReceiptData}
    (prev : List SavedReceiptData) (now : ℤ)
    (h : truthyStr data.transaction_name = false ∨ data.total_amount = none ∨
      truthyStr data.transaction_date = false ∨ truthyStr data.category = false) :
    handleSaveReceipt data prev now = { records := prev, error := some incompleteMsg } := by
  have hc : (!truthyStr data.transaction_name || data.total_amount.isNone
      || !truthyStr data.transaction_date || !truthyStr data.category) = true := by
    rcases h with h | h | h | h <;> simp [h, Option.isNone_iff_eq_none]
  simp [handleSaveReceipt, hc]

lemma handleSaveReceipt_of_complete {data : ReceiptData}
    (prev : List SavedReceiptData) (now : ℤ)
    (hn : truthyStr data.transaction_name = true) (ha : data.total_amount ≠ none)
    (hd : truthyStr data.transaction_date = true) (hc : truthyStr data.category = true) :
    handleSaveReceipt data prev now =
      { records := List.insertionSort saveOrder (mkSaved data now :: prev),
        error := none } := by
  have hcond : (!truthyStr data.transaction_name || data.total_amount.isNone
      || !truthyStr data.transaction_date || !truthyStr data.category) = false := by
    simp [hn, hd, hc, Option.isNone_iff_eq_none, ha, Option.isSome_iff_ne_none]
  simp [handleSaveReceipt, hcond]

lemma sorted_handleSaveReceipt (data : ReceiptData) {l : List SavedReceiptData}
    (now : ℤ) (h : l.Sorted saveOrder) :
    ((handleSaveReceipt data l now).records).Sorted saveOrder := by
  unfold handleSaveReceipt
  split
  · exact h
  · exact List.sorted_insertionSort saveOrder _

lemma sorted_iterateSaves (ops : List (ReceiptData × ℤ)) :
    ∀ {l : List SavedReceiptData}, l.Sorted saveOrder →
      (iterateSaves ops l).Sorted saveOrder := by
  induction ops with
  | nil => intro l h; exact h
  | cons op ops ih =>
    intro l h
    obtain ⟨d, t⟩ := op
    exact ih (sorted_handleSaveReceipt d t h)

/-! ## Claim theorems -/

/-- C1: a save attempt with `transaction_name`, `total_amount`,
`transaction_date` or `category` absent is rejected with the incomplete-data
error message and leaves the record list unchanged; with all four present
(truthy strings, non-null amount) there is no error and the resulting list is
exactly the old one plus the new record, which carries the id `now`. -/
theorem handleSaveReceipt_validation (data : ReceiptData)
    (prev : List SavedReceiptData) (now : ℤ) :
    ((truthyStr data.transaction_name = false ∨ data.total_amount = none ∨
        truthyStr data.transaction_date = false ∨ truthyStr data.category = false) →
      handleSaveReceipt data prev now = { records := prev, error := some incompleteMsg }) ∧
    ((truthyStr data.transaction_name = true ∧ data.total_amount ≠ none ∧
        truthyStr data.transaction_date = true ∧ truthyStr data.category = true) →
      (handleSaveReceipt data prev now).error = none ∧
      (handleSaveReceipt data prev now).records.Perm (mkSaved data now :: prev) ∧
      mkSaved data now ∈ (handleSaveReceipt data prev now).records ∧
      (mkSaved data now).id = now) := by
  constructor
  · exact handleSaveReceipt_of_incomplete prev now
  · rintro ⟨hn, ha, hd, hc⟩
    rw [handleSaveReceipt_of_complete prev now hn ha hd hc]
    refine ⟨rfl, List.perm_insertionSort saveOrder _, ?_, rfl⟩
    exact (List.perm_insertionSort saveOrder _).mem_iff.mpr (List.mem_cons_self _ _)

/-- C2: from a list sorted non-increasing by parsed `transaction_date`, any
save attempt leaves a list again sorted non-increasing by date, any deletion
leaves a sublist (surviving records keep their relative order), and any
sequence of further saves still leaves the list sorted non-increasing by
date. -/
theorem save_sort_invariant (prev : List SavedReceiptData) (data : ReceiptData)
    (now idv : ℤ) (ops : List (ReceiptData × ℤ)) (h : prev.Sorted saveOrder) :
    ((handleSaveReceipt data prev now).records).Sorted saveOrder ∧
    (handleDeleteReceipt idv prev).Sublist prev ∧
    (iterateSaves ops prev).Sorted saveOrder := by
  exact ⟨sorted_handleSaveReceipt data now h, List.filter_sublist prev,
    sorted_iterateSaves ops h⟩

theorem save_sort_invariant_witness :
    (([] : List SavedReceiptData).Sorted saveOrder) ∧
    (((handleSaveReceipt c3rec1 [] 1).records).Sorted saveOrder ∧
      (handleDeleteReceipt 1 []).Sublist ([] : List SavedReceiptData) ∧
      (iterateSaves c3ops []).Sorted saveOrder) :=
  ⟨by decide, save_sort_invariant [] c3rec1 1 1 c3ops (by decide)⟩

/-- C9: a record whose `total_amount` is exactly `0` (name, date and category
present and non-empty) is accepted and added to the list — the amount is
tested against `null`, not for truthiness — whereas replacing the name, date
or category by the empty string makes the save fail with the incomplete-data
error and leave the list unchanged. -/
theorem save_zero_amount_boundary (d : ReceiptData) (prev : List SavedReceiptData)
    (now : ℤ) (hn : truthyStr d.transaction_name = true)
    (hd : truthyStr d.transaction_date = true) (hc : truthyStr d.category = true)
    (ha : d.total_amount = some 0) :
    (handleSaveReceipt d prev now).error = none ∧
    (handleSaveReceipt d prev now).records.Perm (mkSaved d now :: prev) ∧
    handleSaveReceipt { d with transaction_name := some "" } prev now =
      { records := prev, error := some incompleteMsg } ∧
    handleSaveReceipt { d with transaction_date := some "" } prev now =
      { records := prev, error := some incompleteMsg } ∧
    handleSaveReceipt { d with category := some "" } prev now =
      { records := prev, error := some incompleteMsg } := by
  have ha' : d.total_amount ≠ none := by simp [ha]
  rw [handleSaveReceipt_of_complete prev now hn ha' hd hc]
  refine ⟨rfl, List.perm_insertionSort saveOrder _, ?_, ?_, ?_⟩
  · exact handleSaveReceipt_of_incomplete prev now (Or.inl (by simp [truthyStr]))
  · exact handleSaveReceipt_of_incomplete prev now
      (Or.inr (Or.inr (Or.inl (by simp [truthyStr]))))
  · exact handleSaveReceipt_of_incomplete prev now
      (Or.inr (Or.inr (Or.inr (by simp [truthyStr]))))

theorem save_zero_amount_boundary_witness :
    (truthyStr (some "Parking") = true ∧ truthyStr (some "2025-10-09") = true ∧
      truthyStr (some "Transportation") = true ∧
      (⟨some "Parking", some 0, some "2025-10-09", some "Transportation", none, none⟩ :
        ReceiptData).total_amount = some 0) ∧
    ((handleSaveReceipt
        ⟨some "Parking", some 0, some "2025-10-09", some "Transportation", none, none⟩
        [] 7).error = none ∧
      (handleSaveReceipt
        ⟨some "Parking", some 0, some "2025-10-09", some "Transportation", none, none⟩
        [] 7).records.Perm
        [mkSaved ⟨some "Parking", some 0, some "2025-10-09", some "Transportation",
          none, none⟩ 7] ∧
      handleSaveReceipt
        ⟨some "", some 0, some "2025-10-09", some "Transportation", none, none⟩ [] 7 =
        { records := [], error := some incompleteMsg } ∧
      handleSaveReceipt
        ⟨some "Parking", some 0, some "", some "Transportation", none, none⟩ [] 7 =
        { records := [], error := some incompleteMsg } ∧
      handleSaveReceipt
        ⟨some "Parking", some 0, some "2025-10-09", some "", none, none⟩ [] 7 =
        { records := [], error := some incompleteMsg }) :=
  ⟨⟨by decide, by decide, by decide, rfl⟩,
    save_zero_amount_boundary
      ⟨some "Parking", some 0, some "2025-10-09", some "Transportation", none, none⟩
      [] 7 (by decide) (by decide) (by decide) rfl⟩

/-- C10: deletion by id removes exactly the records carrying that id (every
record with the id is gone, every other record survives), the survivors are a
sublist of the original list (relative order is kept), and when no record has
the id the list is unchanged. -/
theorem handleDeleteReceipt_frame (idv : ℤ) (prev : List SavedReceiptData) :
    (∀ r ∈ handleDeleteReceipt idv prev, r.id ≠ idv) ∧
    (∀ r ∈ prev, r.id ≠ idv → r ∈ handleDeleteReceipt idv prev) ∧
    (handleDeleteReceipt idv prev).Sublist prev ∧
    ((∀ r ∈ prev, r.id ≠ idv) → handleDeleteReceipt idv prev = prev) := by
  refine ⟨?_, ?_, List.filter_sublist prev, ?_⟩
  · intro r hr
    have := List.of_mem_filter hr
    simpa [bne_iff_ne] using this
  · intro r hr h
    exact List.mem_filter.mpr ⟨hr, by simpa [bne_iff_ne] using h⟩
  · intro h
    apply List.filter_eq_self.mpr
    intro r hr
    simpa [bne_iff_ne] using h r hr

/-- C5: on both extraction paths the validated category is
`validateCategory`; a category inside the closed nine-value enumeration is
kept unchanged, while an absent category or one outside the enumeration
becomes exactly "Other". -/
theorem category_validation (raw : ReceiptData) (today : String) :
    (analyzeReceiptValidated raw).category = some (validateCategory raw.category) ∧
    (analyzeVoiceValidated raw today).category = some (validateCategory raw.category) ∧
    (∀ s, raw.category = some s → s ∈ categories → validateCategory raw.category = s) ∧
    (raw.category = none → validateCategory raw.category = "Other") ∧
    (∀ s, raw.category = some s → s ∉ categories → validateCategory raw.category = "Other") := by
  refine ⟨rfl, rfl, ?_, ?_, ?_⟩
  · intro s hs hmem
    rw [hs]
    have hne : s ≠ "" := by
      intro h
      rw [h] at hmem
      simp [categories] at hmem
    have hcontains : (s != "" && categories.contains s) = true := by
      simp [hne, List.elem_iff, hmem]
    simp only [validateCategory, hcontains]
    simp
  · intro h
    rw [h]
    rfl
  · intro s hs hmem
    rw [hs]
    have hcontains : categories.contains s = false := by
      simp [List.elem_iff, hmem]
    simp only [validateCategory, hcontains, Bool.and_false]
    simp

/-- C6: with an absent extracted `transaction_date`, the voice path defaults
the validated date to the supplied anchor date `today`, while the image path
leaves it absent. -/
theorem voice_date_default (raw : ReceiptData) (today : String)
    (h : raw.transaction_date = none) :
    (analyzeVoiceValidated raw today).transaction_date = some today ∧
    (analyzeReceiptValidated raw).transaction_date = none := by
  constructor
  · simp [analyzeVoiceValidated, jsOrStr, h]
  · simp [analyzeReceiptValidated, jsOrNull, h]

theorem voice_date_default_witness :
    ((⟨none, none, none, none, none, none⟩ : ReceiptData).transaction_date = none) ∧
    ((analyzeVoiceValidated ⟨none, none, none, none, none, none⟩
        "2025-10-11").transaction_date = some "2025-10-11" ∧
      (analyzeReceiptValidated
        ⟨none, none, none, none, none, none⟩).transaction_date = none) :=
  ⟨rfl, voice_date_default ⟨none, none, none, none, none, none⟩ "2025-10-11" rfl⟩

/-- C8: when the extracted date is present (truthy) and its year differs from
the current year, the image-analysis handler sets the error message naming
the mismatched year, discards the extracted record (nothing is offered for
review), and leaves the saved record list unchanged. -/
theorem handleImageSelect_year_mismatch (data : ReceiptData)
    (saved : List SavedReceiptData) (currentYear : ℤ) (s : String)
    (hdate : data.transaction_date = some s) (hs : s ≠ "")
    (hy : getFullYearOfDateStr s ≠ currentYear) :
    handleImageSelect data saved currentYear =
      { receiptData := none,
        error := some (yearCheckMsg (getFullYearOfDateStr s) currentYear),
        savedReceipts := saved } := by
  have ht : truthyStr (some s) = true := by
    simp [truthyStr, hs]
  simp [handleImageSelect, hdate, ht, hy]

theorem handleImageSelect_year_mismatch_witness :
    ((⟨none, none, some "2023-05-05", none, none, none⟩ :
        ReceiptData).transaction_date = some "2023-05-05" ∧
      "2023-05-05" ≠ "" ∧ getFullYearOfDateStr "2023-05-05" ≠ 2025) ∧
    handleImageSelect ⟨none, none, some "2023-05-05", none, none, none⟩ [] 2025 =
      { receiptData := none,
        error := some (yearCheckMsg (getFullYearOfDateStr "2023-05-05") 2025),
        savedReceipts := [] } :=
  ⟨⟨rfl, by decide, by decide⟩,
    handleImageSelect_year_mismatch ⟨none, none, some "2023-05-05", none, none, none⟩
      [] 2025 "2023-05-05" rfl (by decide) (by decide)⟩

/-- C3: for a non-All selector the output is the per-category aggregation of
the filtered records: its keys are exactly the distinct categories present
(each once), listed in insertion order of first occurrence, and each
category's total is the sum of the amounts of its records with absent
amounts counted as zero; in particular, after saving the three scenario
records (50 and 100 Transportation, 200 Food & Drink, all in the month of
"now") the Monthly selection yields
[(Transportation, 150), (Food & Drink, 200)] in that first-seen order. -/
theorem summarize_spec (rs : List SavedReceiptData) (c : String) (f : FilterType)
    (now : ℤ) :
    ((summarize rs).map Prod.fst).Nodup ∧
    (∀ c', c' ∈ (summarize rs).map Prod.fst ↔ ∃ r ∈ rs, keyOf r = c') ∧
    ((summarize rs).map Prod.fst = firstSeen (rs.map keyOf)) ∧
    ((summarize rs).lookup c = if c ∈ rs.map keyOf then some (sumFor c rs) else none) ∧
    (f ≠ FilterType.All →
      filteredData f now rs = Sum.inr (summarize (filterReceipts f now rs))) ∧
    (filteredData FilterType.Monthly c3now (iterateSaves c3ops []) =
      Sum.inr [("Transportation", 150), ("Food & Drink", 200)]) := by
  have hkeys : (summarize rs).map Prod.fst = firstSeen (rs.map keyOf) := by
    rw [summarize_eq_foldl, summAux_map_fst rs []]
    rfl
  refine ⟨?_, ?_, hkeys, ?_, ?_, ?_⟩
  · rw [hkeys]
    exact foldl_firstSeenStep_nodup (rs.map keyOf) List.nodup_nil
  · intro c'
    rw [hkeys]
    unfold firstSeen
    rw [mem_foldl_firstSeenStep]
    simp [List.mem_map]
  · rw [summarize_eq_foldl, summAux_lookup rs [] c]
    simp [List.lookup]
  · intro hf
    cases f <;> first | rfl | exact absurd rfl hf
  · have h1 : iterateSaves c3ops [] =
        [⟨c3rec1, 1⟩, ⟨c3rec2, 2⟩, ⟨c3rec3, 3⟩] := by decide
    have h2 : filterReceipts FilterType.Monthly c3now
        [⟨c3rec1, 1⟩, ⟨c3rec2, 2⟩, ⟨c3rec3, 3⟩] =
        [⟨c3rec1, 1⟩, ⟨c3rec2, 2⟩, ⟨c3rec3, 3⟩] := by decide
    have h3 : summarize [⟨c3rec1, 1⟩, ⟨c3rec2, 2⟩, ⟨c3rec3, 3⟩] =
        [("Transportation", (50 : ℚ) + 100), ("Food & Drink", 200)] := by rfl
    show Sum.inr (summarize (filterReceipts FilterType.Monthly c3now
      (iterateSaves c3ops []))) = _
    rw [h1, h2, h3]
    norm_num

lemma toFixed2_ne_empty (q : ℚ) : toFixed2 q ≠ "" := by
  intro hcontra
  have hlen := congrArg String.length hcontra
  rw [toFixed2] at hlen
  rw [String.length_append, String.length_append, String.length_append,
    String.length_append] at hlen
  have hdot : String.length "." = 1 := rfl
  have hnil : String.length "" = 0 := rfl
  omega

lemma jsOrStr_eq_specCell (x : Option String) : jsOrStr x "N/A" = specCell x := by
  cases x <;> rfl

/-- C4 counterexample: on a record with every field absent the serialized row
is `N/A,N/A,0.00,N/A,N/A,N/A` — the absent amount renders as "0.00", not as
"N/A" as the claim states. -/
theorem formatTransactionsForAI_absent_amount_cell :
    formatTransactionsForAI [c4rec] =
      "Date,Transaction,Amount,Category,Client/Prospect,Purpose\nN/A,N/A,0.00,N/A,N/A,N/A\n" ∧
    (rowFields c4rec).get? 2 = some "0.00" ∧
    formatTransactionsForAI [c4rec] ≠
      aiHeader ++ "N/A,N/A,N/A,N/A,N/A,N/A\n" ∧
    "0.00" ≠ "N/A" :=
  ⟨by decide, by decide, by decide, by decide⟩

/-- C4 (amended): for a nonempty record list the serialization is the fixed
header followed by one comma-joined row per record in order; in each row an
absent (or empty) string field renders "N/A", a present amount renders its
two-decimal formatting, and an absent amount renders "0.00"; an empty record
list yields the fixed placeholder text instead. -/
theorem formatTransactionsForAI_amended (ts : List SavedReceiptData)
    (t : SavedReceiptData) (h : ts ≠ []) :
    formatTransactionsForAI ts = aiHeader ++ specRows ts ∧
    rowFields t = [specCell t.transaction_date, specCell t.transaction_name,
      specAmt t.total_amount, specCell t.category, specCell t.client_or_prospect,
      specCell t.purpose] ∧
    formatTransactionsForAI [] = "No transactions available." := by
  refine ⟨?_, ?_, rfl⟩
  · have hempty : ts.isEmpty = false := by
      cases ts with
      | nil => exact absurd rfl h
      | cons a l => rfl
    unfold formatTransactionsForAI
    rw [hempty]
    simp only [Bool.false_eq_true, if_false]
    exact foldl_append_rows ts aiHeader
  · cases ha : t.total_amount with
    | none => simp [rowFields, specAmt, ha, jsOrStr_eq_specCell]
    | some q => simp [rowFields, specAmt, ha, jsOrStr_eq_specCell, toFixed2_ne_empty q]

theorem formatTransactionsForAI_amended_witness :
    ([c4rec] ≠ ([] : List SavedReceiptData)) ∧
    (formatTransactionsForAI [c4rec] = aiHeader ++ specRows [c4rec] ∧
      rowFields c4rec = [specCell c4rec.transaction_date,
        specCell c4rec.transaction_name, specAmt c4rec.total_amount,
        specCell c4rec.category, specCell c4rec.client_or_prospect,
        specCell c4rec.purpose] ∧
      formatTransactionsForAI [] = "No transactions available.") :=
  ⟨by decide, formatTransactionsForAI_amended [c4rec] c4rec (by decide)⟩

/-- C7: the computed weekly window starts at the midnight of the most recent
Monday at or before "now" (on a Sunday this is the preceding Monday, six days
back), ends exactly at the last millisecond of the following Sunday, and the
Weekly selector keeps exactly the records whose date lies within the window,
both endpoints inclusive. -/
theorem getWeekRange_spec (now : ℤ) (rs : List SavedReceiptData)
    (r : SavedReceiptData) :
    jsGetDay (getWeekRange now).1 = 1 ∧
    (getWeekRange now).1 % msPerDay = 0 ∧
    (getWeekRange now).1 ≤ now ∧
    (∀ m : ℤ, m % msPerDay = 0 → jsGetDay m = 1 → m ≤ now →
      m ≤ (getWeekRange now).1) ∧
    (getWeekRange now).2 = (getWeekRange now).1 + 7 * msPerDay - 1 ∧
    jsGetDay (getWeekRange now).2 = 0 ∧
    (jsGetDay now = 0 → (getWeekRange now).1 = (now / msPerDay - 6) * msPerDay) ∧
    (r ∈ filterReceipts FilterType.Weekly now rs ↔
      r ∈ rs ∧ (getWeekRange now).1 ≤ getTime r ∧
        getTime r ≤ (getWeekRange now).2) := by
  refine ⟨?_, ?_, ?_, ?_, ?_, ?_, ?_, ?_⟩
  · unfold getWeekRange weekShift jsGetDay msPerDay
    by_cases hd : (now / 86400000 + 4) % 7 = 0
    · rw [if_pos hd]; omega
    · rw [if_neg hd]; omega
  · unfold getWeekRange msPerDay
    omega
  · unfold getWeekRange weekShift jsGetDay msPerDay
    by_cases hd : (now / 86400000 + 4) % 7 = 0
    · rw [if_pos hd]; omega
    · rw [if_neg hd]; omega
  · intro m hm hday hle
    unfold jsGetDay msPerDay at hday
    unfold msPerDay at hm
    unfold getWeekRange weekShift jsGetDay msPerDay
    by_cases hd : (now / 86400000 + 4) % 7 = 0
    · rw [if_pos hd]; omega
    · rw [if_neg hd]; omega
  · rfl
  · unfold getWeekRange weekShift jsGetDay msPerDay
    by_cases hd : (now / 86400000 + 4) % 7 = 0
    · rw [if_pos hd]; omega
    · rw [if_neg hd]; omega
  · intro hday
    unfold jsGetDay msPerDay at hday
    unfold getWeekRange weekShift jsGetDay msPerDay
    rw [if_pos hday]
    omega
  · simp [filterReceipts, List.mem_filter, Bool.and_eq_true, decide_eq_true_eq,
      and_assoc]

end ResiboKo
